import Mathlib

/-!
# Pose estimator of the three-wheeled platform (platform.h, platform.cpp, tests.cpp)

The C++ class `platform` keeps a running pose and updates it from timestamped
sensor samples.  Two embeddings of its two methods are given.

* `platform F` takes the values of a `float` or `double` from a field `F` that
  carries the `<cmath>` functions the program calls (`CMath F`); the results about
  it are proved for `F = ℝ`.  In `ℝ` a quotient by zero is `0`, whereas the program
  gets an infinity or a NaN, so every result about `platform` is stated for a
  nonzero `delta_time`.
* `fplatform F` takes them from `Flt F`: the finite values together with the two
  infinities and NaN, under the rules of IEEE 754.  The results about it hold for
  every state and every sample, a zero `delta_time` included.

Neither embedding has rounding: a finite result is the exact one.  The results
below are those that do not depend on this, that is, that the program satisfies in
`float` arithmetic as well: they rest on comparisons with zero, on the sign symmetry
of the operations, on the same computation being done twice, and on the propagation
of NaN.  `int` values are integers without wrap-around.
-/

namespace PoseEstimator

/-! ## Definitions -/

/-- The constants and functions of `<cmath>` used by the program:
`M_PI`, `std::cos`, `std::sin`, `std::tan`. -/
class CMath (F : Type) where
  pi : F
  cos : F → F
  sin : F → F
  tan : F → F

/-- Real-number meaning of the `<cmath>` functions. -/
noncomputable instance instCMathReal : CMath ℝ where
  pi := Real.pi
  cos := Real.cos
  sin := Real.sin
  tan := Real.tan

/-- Data members of `class platform` (platform.h, lines 35-42), with their
default member initialisers. -/
structure platform (F : Type) [Field F] where
  time : F := 0.0
  encoder_ticks : ℤ := 0
  x : F := 0.0
  y : F := 0.0
  theta : F := 0.0
  R : F := 0.2
  gamma : ℤ := 512
  r_axel : F := 1.0

/-- Method `platform::est_wheel_speed` (platform.cpp, lines 49-52). -/
def platform.est_wheel_speed {F : Type} [Field F] [CMath F] (p : platform F)
    (delta_time : F) (delta_ticks : ℤ) : F :=
  let wheel_speed := (2 * CMath.pi * p.R / (p.gamma : F)) * (delta_ticks : F) / delta_time
  wheel_speed

/-- The increments `(dx, dy, dtheta)` chosen by the three-way branch of
`platform::estimate` (platform.cpp, lines 18-39). -/
def platform.increments {F : Type} [Field F] [DecidableEq F] [CMath F] (p : platform F)
    (delta_time steering_angle wheel_speed angular_velocity : F) : F × F × F :=
  if wheel_speed = 0 then
    (0, 0, 0)
  else if angular_velocity = 0 ∨ steering_angle = 0 then
    (wheel_speed * delta_time * CMath.cos p.theta,
     wheel_speed * delta_time * CMath.sin p.theta,
     0)
  else
    let dtheta := delta_time * angular_velocity
    (p.r_axel / CMath.tan steering_angle *
       (CMath.sin (p.theta + dtheta) - CMath.sin p.theta),
     p.r_axel / CMath.tan steering_angle *
       (-CMath.cos (p.theta + dtheta) + CMath.cos p.theta),
     dtheta)

/-- Method `platform::estimate` (platform.cpp, lines 12-47): the returned tuple
paired with the object after the call. -/
def platform.estimate {F : Type} [Field F] [DecidableEq F] [CMath F] (p : platform F)
    (time steering_angle : F) (encoder_ticks : ℤ) (angular_velocity : F) :
    (F × F × F) × platform F :=
  let delta_time := time - p.time
  let delta_ticks := encoder_ticks - p.encoder_ticks
  let wheel_speed := p.est_wheel_speed delta_time delta_ticks
  let d := p.increments delta_time steering_angle wheel_speed angular_velocity
  let q : platform F :=
    { p with
      x := p.x + d.1
      y := p.y + d.2.1
      theta := p.theta + d.2.2
      time := time
      encoder_ticks := encoder_ticks }
  ((q.x, q.y, q.theta), q)

/-- One row of sensor data handed to `estimate` by the drivers of tests.cpp. -/
structure Sample (F : Type) where
  time : F
  steering_angle : F
  encoder_ticks : ℤ
  angular_velocity : F

/-- One iteration of a driver loop of tests.cpp: call `estimate` on a sample. -/
def platform.feed {F : Type} [Field F] [DecidableEq F] [CMath F] (p : platform F)
    (s : Sample F) : (F × F × F) × platform F :=
  p.estimate s.time s.steering_angle s.encoder_ticks s.angular_velocity

/-- The sample with steering angle and yaw rate negated, as `fig8Test` passes
`-1*steering_angle` and `-1*angular_velocity` on its right turn. -/
def Sample.mirror {F : Type} [Neg F] (s : Sample F) : Sample F :=
  { s with
    steering_angle := -s.steering_angle
    angular_velocity := -s.angular_velocity }

/-- A pose tuple reflected in the x axis. -/
def mirror_pose {F : Type} [Neg F] (q : F × F × F) : F × F × F :=
  (q.1, -q.2.1, -q.2.2)

/-! ### The non-finite values of floating-point arithmetic

The definitions above take the values of a `float` from a field, where a quotient by
zero has no faithful meaning.  The definitions below embed the same two methods over
values that also include the infinities and NaN, with the rules of IEEE 754 for
them (the arithmetic of the C++ types `float` and `double`).  Finite values are still
exact: rounding and overflow are left out, and zero carries no sign (it stands for
`+0`, which is what `time - this->time` gives for equal finite arguments). -/

/-- Values of a floating-point variable: a finite number, plus infinity, minus
infinity, or NaN. -/
inductive Flt (F : Type) where
  | fin : F → Flt F
  | pinf : Flt F
  | ninf : Flt F
  | nan : Flt F

/-- Holds of the finite values only (`std::isfinite`). -/
def Flt.finite {F : Type} : Flt F → Prop
  | Flt.fin _ => True
  | _ => False

/-- Unary minus. -/
def Flt.neg {F : Type} [LinearOrderedField F] : Flt F → Flt F
  | Flt.fin a => Flt.fin (-a)
  | Flt.pinf => Flt.ninf
  | Flt.ninf => Flt.pinf
  | Flt.nan => Flt.nan

/-- Addition: NaN is absorbing and infinities of opposite sign add to NaN. -/
def Flt.add {F : Type} [LinearOrderedField F] : Flt F → Flt F → Flt F
  | Flt.fin a, Flt.fin b => Flt.fin (a + b)
  | Flt.nan, _ => Flt.nan
  | _, Flt.nan => Flt.nan
  | Flt.pinf, Flt.ninf => Flt.nan
  | Flt.ninf, Flt.pinf => Flt.nan
  | Flt.pinf, _ => Flt.pinf
  | _, Flt.pinf => Flt.pinf
  | Flt.ninf, _ => Flt.ninf
  | _, Flt.ninf => Flt.ninf

/-- Subtraction, `a - b = a + (-b)`. -/
def Flt.sub {F : Type} [LinearOrderedField F] (a b : Flt F) : Flt F :=
  Flt.add a (Flt.neg b)

/-- The product of the finite value `a` with plus infinity, which is also the quotient
of `a` by zero: the infinity with the sign of `a`, and NaN for `a = 0`. -/
def Flt.scale_inf {F : Type} [LinearOrderedField F] (a : F) : Flt F :=
  if a = 0 then Flt.nan else if 0 < a then Flt.pinf else Flt.ninf

/-- Multiplication: NaN is absorbing and zero times an infinity is NaN. -/
def Flt.mul {F : Type} [LinearOrderedField F] : Flt F → Flt F → Flt F
  | Flt.fin a, Flt.fin b => Flt.fin (a * b)
  | Flt.nan, _ => Flt.nan
  | _, Flt.nan => Flt.nan
  | Flt.fin a, Flt.pinf => Flt.scale_inf a
  | Flt.pinf, Flt.fin a => Flt.scale_inf a
  | Flt.fin a, Flt.ninf => Flt.neg (Flt.scale_inf a)
  | Flt.ninf, Flt.fin a => Flt.neg (Flt.scale_inf a)
  | Flt.pinf, Flt.pinf => Flt.pinf
  | Flt.ninf, Flt.ninf => Flt.pinf
  | Flt.pinf, Flt.ninf => Flt.ninf
  | Flt.ninf, Flt.pinf => Flt.ninf

/-- Division: a nonzero finite value over zero is an infinity, zero over zero and an
infinity over an infinity are NaN, a finite value over an infinity is zero. -/
def Flt.div {F : Type} [LinearOrderedField F] : Flt F → Flt F → Flt F
  | Flt.fin a, Flt.fin b => if b = 0 then Flt.scale_inf a else Flt.fin (a / b)
  | Flt.nan, _ => Flt.nan
  | _, Flt.nan => Flt.nan
  | Flt.fin _, Flt.pinf => Flt.fin 0
  | Flt.fin _, Flt.ninf => Flt.fin 0
  | Flt.pinf, Flt.fin b => if 0 ≤ b then Flt.pinf else Flt.ninf
  | Flt.ninf, Flt.fin b => if 0 ≤ b then Flt.ninf else Flt.pinf
  | Flt.pinf, Flt.pinf => Flt.nan
  | Flt.pinf, Flt.ninf => Flt.nan
  | Flt.ninf, Flt.pinf => Flt.nan
  | Flt.ninf, Flt.ninf => Flt.nan

/-- The comparison `==`: NaN compares unequal to everything, itself included. -/
def Flt.eq {F : Type} [LinearOrderedField F] : Flt F → Flt F → Bool
  | Flt.fin a, Flt.fin b => decide (a = b)
  | Flt.pinf, Flt.pinf => true
  | Flt.ninf, Flt.ninf => true
  | _, _ => false

/-- Conversion of an `int` to a floating-point value. -/
def Flt.of_int {F : Type} [LinearOrderedField F] (n : ℤ) : Flt F :=
  Flt.fin (n : F)

/-- A function of `<cmath>` on floating-point values: NaN at the infinities and at
NaN. -/
def Flt.lift {F : Type} (f : F → F) : Flt F → Flt F
  | Flt.fin a => Flt.fin (f a)
  | _ => Flt.nan

instance Flt.instNeg {F : Type} [LinearOrderedField F] : Neg (Flt F) := ⟨Flt.neg⟩

instance Flt.instAdd {F : Type} [LinearOrderedField F] : Add (Flt F) := ⟨Flt.add⟩

instance Flt.instSub {F : Type} [LinearOrderedField F] : Sub (Flt F) := ⟨Flt.sub⟩

instance Flt.instMul {F : Type} [LinearOrderedField F] : Mul (Flt F) := ⟨Flt.mul⟩

instance Flt.instDiv {F : Type} [LinearOrderedField F] : Div (Flt F) := ⟨Flt.div⟩

/-- The functions of `<cmath>` on floating-point values. -/
instance Flt.instCMath {F : Type} [CMath F] : CMath (Flt F) where
  pi := Flt.fin CMath.pi
  cos := Flt.lift CMath.cos
  sin := Flt.lift CMath.sin
  tan := Flt.lift CMath.tan

/-- Data members of `class platform` (platform.h, lines 35-42) as floating-point
values, with their default member initialisers. -/
structure fplatform (F : Type) [LinearOrderedField F] where
  time : Flt F := Flt.fin 0.0
  encoder_ticks : ℤ := 0
  x : Flt F := Flt.fin 0.0
  y : Flt F := Flt.fin 0.0
  theta : Flt F := Flt.fin 0.0
  R : Flt F := Flt.fin 0.2
  gamma : ℤ := 512
  r_axel : Flt F := Flt.fin 1.0

/-- Method `platform::est_wheel_speed` (platform.cpp, lines 49-52) on floating-point
values. -/
def fplatform.est_wheel_speed {F : Type} [LinearOrderedField F] [CMath F] (p : fplatform F)
    (delta_time : Flt F) (delta_ticks : ℤ) : Flt F :=
  let wheel_speed :=
    (Flt.fin 2 * CMath.pi * p.R / Flt.of_int p.gamma) * Flt.of_int delta_ticks / delta_time
  wheel_speed

/-- The increments `(dx, dy, dtheta)` chosen by the three-way branch of
`platform::estimate` (platform.cpp, lines 18-39) on floating-point values. -/
def fplatform.increments {F : Type} [LinearOrderedField F] [CMath F] (p : fplatform F)
    (delta_time steering_angle wheel_speed angular_velocity : Flt F) :
    Flt F × Flt F × Flt F :=
  if Flt.eq wheel_speed (Flt.fin 0) then
    (Flt.fin 0, Flt.fin 0, Flt.fin 0)
  else if Flt.eq angular_velocity (Flt.fin 0) || Flt.eq steering_angle (Flt.fin 0) then
    (wheel_speed * delta_time * CMath.cos p.theta,
     wheel_speed * delta_time * CMath.sin p.theta,
     Flt.fin 0)
  else
    let dtheta := delta_time * angular_velocity
    (p.r_axel / CMath.tan steering_angle *
       (CMath.sin (p.theta + dtheta) - CMath.sin p.theta),
     p.r_axel / CMath.tan steering_angle *
       (-CMath.cos (p.theta + dtheta) + CMath.cos p.theta),
     dtheta)

/-- Method `platform::estimate` (platform.cpp, lines 12-47) on floating-point values:
the returned tuple paired with the object after the call. -/
def fplatform.estimate {F : Type} [LinearOrderedField F] [CMath F] (p : fplatform F)
    (time steering_angle : Flt F) (encoder_ticks : ℤ) (angular_velocity : Flt F) :
    (Flt F × Flt F × Flt F) × fplatform F :=
  let delta_time := time - p.time
  let delta_ticks := encoder_ticks - p.encoder_ticks
  let wheel_speed := p.est_wheel_speed delta_time delta_ticks
  let d := p.increments delta_time steering_angle wheel_speed angular_velocity
  let q : fplatform F :=
    { p with
      x := p.x + d.1
      y := p.y + d.2.1
      theta := p.theta + d.2.2
      time := time
      encoder_ticks := encoder_ticks }
  ((q.x, q.y, q.theta), q)

/-- One iteration of a driver loop on floating-point values. -/
def fplatform.feed {F : Type} [LinearOrderedField F] [CMath F] (p : fplatform F)
    (s : Sample (Flt F)) : (Flt F × Flt F × Flt F) × fplatform F :=
  p.estimate s.time s.steering_angle s.encoder_ticks s.angular_velocity

/-- The tuples returned by the successive calls of a driver loop on floating-point
values. -/
def fplatform.poses {F : Type} [LinearOrderedField F] [CMath F] :
    fplatform F → List (Sample (Flt F)) → List (Flt F × Flt F × Flt F)
  | _, [] => []
  | p, s :: rest => (p.feed s).1 :: fplatform.poses (p.feed s).2 rest

/-- The floating-point platform reflected in the x axis: same `x`, negated `y` and
heading. -/
def fplatform.mirror {F : Type} [LinearOrderedField F] (p : fplatform F) : fplatform F :=
  { p with
    y := -p.y
    theta := -p.theta }

/-! ## Elementary facts about one call -/

section OneCall

variable (p : platform ℝ) (time steering_angle : ℝ) (encoder_ticks : ℤ)
  (angular_velocity : ℝ)

@[simp] theorem cmath_pi : (CMath.pi : ℝ) = Real.pi := rfl
@[simp] theorem cmath_cos (a : ℝ) : CMath.cos a = Real.cos a := rfl
@[simp] theorem cmath_sin (a : ℝ) : CMath.sin a = Real.sin a := rfl
@[simp] theorem cmath_tan (a : ℝ) : CMath.tan a = Real.tan a := rfl

theorem est_wheel_speed_eq (delta_time : ℝ) (delta_ticks : ℤ) :
    p.est_wheel_speed delta_time delta_ticks
      = (2 * Real.pi * p.R / (p.gamma : ℝ)) * (delta_ticks : ℝ) / delta_time := rfl

theorem est_wheel_speed_zero_ticks (delta_time : ℝ) :
    p.est_wheel_speed delta_time 0 = 0 := by
  simp [est_wheel_speed_eq]

theorem increments_stationary (delta_time : ℝ) :
    p.increments delta_time steering_angle 0 angular_velocity = (0, 0, 0) := by
  simp [platform.increments]

theorem increments_straight (delta_time wheel_speed : ℝ)
    (h : angular_velocity = 0 ∨ steering_angle = 0) :
    p.increments delta_time steering_angle wheel_speed angular_velocity
      = (wheel_speed * delta_time * Real.cos p.theta,
         wheel_speed * delta_time * Real.sin p.theta, 0) := by
  unfold platform.increments
  by_cases hw : wheel_speed = 0
  · simp [hw]
  · simp [hw, h]

theorem increments_arc (delta_time wheel_speed : ℝ) (hw : wheel_speed ≠ 0)
    (ha : angular_velocity ≠ 0) (hs : steering_angle ≠ 0) :
    p.increments delta_time steering_angle wheel_speed angular_velocity
      = (p.r_axel / Real.tan steering_angle *
           (Real.sin (p.theta + delta_time * angular_velocity) - Real.sin p.theta),
         p.r_axel / Real.tan steering_angle *
           (-Real.cos (p.theta + delta_time * angular_velocity) + Real.cos p.theta),
         delta_time * angular_velocity) := by
  simp [platform.increments, hw, ha, hs]

theorem est_wheel_speed_ne_zero (delta_time : ℝ) (delta_ticks : ℤ) (hR : p.R ≠ 0)
    (hg : p.gamma ≠ 0) (hn : delta_ticks ≠ 0) (ht : delta_time ≠ 0) :
    p.est_wheel_speed delta_time delta_ticks ≠ 0 := by
  rw [est_wheel_speed_eq]
  have hg' : (p.gamma : ℝ) ≠ 0 := Int.cast_ne_zero.mpr hg
  have hn' : (delta_ticks : ℝ) ≠ 0 := Int.cast_ne_zero.mpr hn
  have hpi : Real.pi ≠ 0 := Real.pi_ne_zero
  positivity

theorem est_wheel_speed_neg (delta_time : ℝ) (delta_ticks : ℤ) :
    p.est_wheel_speed delta_time (-delta_ticks)
      = -p.est_wheel_speed delta_time delta_ticks := by
  simp only [est_wheel_speed_eq, Int.cast_neg]
  ring

/-- What one call returns and stores, in terms of the increments of its branch. -/
theorem estimate_eq :
    p.estimate time steering_angle encoder_ticks angular_velocity
      = ((p.x + (p.increments (time - p.time) steering_angle
            (p.est_wheel_speed (time - p.time) (encoder_ticks - p.encoder_ticks))
            angular_velocity).1,
          p.y + (p.increments (time - p.time) steering_angle
            (p.est_wheel_speed (time - p.time) (encoder_ticks - p.encoder_ticks))
            angular_velocity).2.1,
          p.theta + (p.increments (time - p.time) steering_angle
            (p.est_wheel_speed (time - p.time) (encoder_ticks - p.encoder_ticks))
            angular_velocity).2.2),
         { p with
           x := p.x + (p.increments (time - p.time) steering_angle
             (p.est_wheel_speed (time - p.time) (encoder_ticks - p.encoder_ticks))
             angular_velocity).1
           y := p.y + (p.increments (time - p.time) steering_angle
             (p.est_wheel_speed (time - p.time) (encoder_ticks - p.encoder_ticks))
             angular_velocity).2.1
           theta := p.theta + (p.increments (time - p.time) steering_angle
             (p.est_wheel_speed (time - p.time) (encoder_ticks - p.encoder_ticks))
             angular_velocity).2.2
           time := time
           encoder_ticks := encoder_ticks }) := rfl

/-- When the wheel speed, the yaw rate or the steering angle is zero, the result of
a call is the same whatever function stands for `std::tan`: the quotient by
`tan steering_angle` is not part of the computation. -/
theorem estimate_tan_free (tan_alt : ℝ → ℝ)
    (h : p.est_wheel_speed (time - p.time) (encoder_ticks - p.encoder_ticks) = 0
      ∨ angular_velocity = 0 ∨ steering_angle = 0) :
    @platform.estimate ℝ _ _ (CMath.mk Real.pi Real.cos Real.sin tan_alt) p
        time steering_angle encoder_ticks angular_velocity
      = p.estimate time steering_angle encoder_ticks angular_velocity := by
  have e : @platform.est_wheel_speed ℝ _ (CMath.mk Real.pi Real.cos Real.sin tan_alt) p
      (time - p.time) (encoder_ticks - p.encoder_ticks)
      = p.est_wheel_speed (time - p.time) (encoder_ticks - p.encoder_ticks) := rfl
  have hi : @platform.increments ℝ _ _ (CMath.mk Real.pi Real.cos Real.sin tan_alt) p
      (time - p.time) steering_angle
      (p.est_wheel_speed (time - p.time) (encoder_ticks - p.encoder_ticks)) angular_velocity
      = p.increments (time - p.time) steering_angle
      (p.est_wheel_speed (time - p.time) (encoder_ticks - p.encoder_ticks))
      angular_velocity := by
    unfold platform.increments
    rcases h with h | h | h
    · simp [h]
    · simp [h]
    · simp [h]
  unfold platform.estimate
  simp only [e, hi]

end OneCall

/-! ## One call on the arc route -/

section Runs

variable (p : platform ℝ) (s : Sample ℝ)

/-- A sample on the arc route. -/
theorem feed_arc (hR : p.R ≠ 0) (hg : p.gamma ≠ 0) (ha : s.angular_velocity ≠ 0)
    (hs : s.steering_angle ≠ 0) (ht : s.time - p.time ≠ 0)
    (hn : s.encoder_ticks - p.encoder_ticks ≠ 0) :
    (p.feed s).2.x = p.x + p.r_axel / Real.tan s.steering_angle *
        (Real.sin (p.theta + (s.time - p.time) * s.angular_velocity) - Real.sin p.theta)
      ∧ (p.feed s).2.y = p.y + p.r_axel / Real.tan s.steering_angle *
        (-Real.cos (p.theta + (s.time - p.time) * s.angular_velocity) + Real.cos p.theta)
      ∧ (p.feed s).2.theta = p.theta + (s.time - p.time) * s.angular_velocity := by
  have hi := increments_arc p s.steering_angle s.angular_velocity (s.time - p.time)
    (p.est_wheel_speed (s.time - p.time) (s.encoder_ticks - p.encoder_ticks))
    (est_wheel_speed_ne_zero p _ _ hR hg hn ht) ha hs
  unfold platform.feed
  rw [estimate_eq, hi]
  simp

end Runs

/-! ## When the wheel speed is zero -/

section ArcStep

/-- The wheel speed vanishes exactly when the ticks-to-metres factor does, for a
nonzero elapsed time and a nonzero tick delta. -/
theorem est_wheel_speed_eq_zero_iff (p : platform ℝ) (delta_time : ℝ) (delta_ticks : ℤ)
    (ht : delta_time ≠ 0) (hn : delta_ticks ≠ 0) :
    p.est_wheel_speed delta_time delta_ticks = 0
      ↔ 2 * Real.pi * p.R / (p.gamma : ℝ) = 0 := by
  have hn' : (delta_ticks : ℝ) ≠ 0 := Int.cast_ne_zero.mpr hn
  rw [est_wheel_speed_eq, div_eq_zero_iff, mul_eq_zero]
  constructor
  · rintro ((h | h) | h)
    · exact h
    · exact absurd h hn'
    · exact absurd h ht
  · intro h
    exact Or.inl (Or.inl h)

end ArcStep

/-! ## Facts about the non-finite values -/

section NonFinite

theorem flt_add_def (a b : Flt ℝ) : a + b = Flt.add a b := rfl
theorem flt_sub_def (a b : Flt ℝ) : a - b = Flt.add a (Flt.neg b) := rfl
theorem flt_mul_def (a b : Flt ℝ) : a * b = Flt.mul a b := rfl
theorem flt_div_def (a b : Flt ℝ) : a / b = Flt.div a b := rfl
theorem flt_neg_def (a : Flt ℝ) : -a = Flt.neg a := rfl

theorem flt_fin_sub_self (t : ℝ) : Flt.fin t - Flt.fin t = Flt.fin 0 := by
  rw [flt_sub_def]
  simp [Flt.neg, Flt.add]

theorem flt_nan_add (a : Flt ℝ) : Flt.nan + a = Flt.nan := by
  cases a <;> rfl

theorem flt_add_nan (a : Flt ℝ) : a + Flt.nan = Flt.nan := by
  cases a <;> rfl

theorem flt_nan_mul (a : Flt ℝ) : Flt.nan * a = Flt.nan := by
  cases a <;> rfl

theorem flt_add_fin_zero (a : Flt ℝ) : a + Flt.fin 0 = a := by
  cases a with
  | fin x => rw [flt_add_def]; simp [Flt.add]
  | pinf => rfl
  | ninf => rfl
  | nan => rfl

/-- Whatever is divided by zero, the quotient is not finite. -/
theorem flt_div_zero_not_finite (a : Flt ℝ) : ¬ (a / Flt.fin 0).finite := by
  rw [flt_div_def]
  cases a with
  | fin x =>
    by_cases hx : x = 0
    · simp [Flt.div, Flt.scale_inf, Flt.finite, hx]
    · by_cases hp : 0 < x
      · simp [Flt.div, Flt.scale_inf, Flt.finite, hx, hp]
      · simp [Flt.div, Flt.scale_inf, Flt.finite, hx, hp]
  | pinf => simp [Flt.div, Flt.finite]
  | ninf => simp [Flt.div, Flt.finite]
  | nan => simp [Flt.div, Flt.finite]

/-- A value that is not finite does not compare equal to zero. -/
theorem flt_eq_zero_of_not_finite (a : Flt ℝ) (h : ¬ a.finite) :
    Flt.eq a (Flt.fin 0) = false := by
  cases a with
  | fin x => exact absurd trivial h
  | pinf => rfl
  | ninf => rfl
  | nan => rfl

/-- A value that is not finite, multiplied by zero, is NaN. -/
theorem flt_not_finite_mul_zero (a : Flt ℝ) (h : ¬ a.finite) :
    a * Flt.fin 0 = Flt.nan := by
  rw [flt_mul_def]
  cases a with
  | fin x => exact absurd trivial h
  | pinf => simp [Flt.mul, Flt.scale_inf]
  | ninf => simp [Flt.mul, Flt.scale_inf, Flt.neg]
  | nan => rfl

/-- The wheel speed computed for a zero elapsed time is not finite. -/
theorem fplatform_wheel_speed_not_finite (p : fplatform ℝ) (delta_ticks : ℤ) :
    ¬ (p.est_wheel_speed (Flt.fin 0) delta_ticks).finite :=
  flt_div_zero_not_finite _

/-- What one call on floating-point values returns and stores. -/
theorem fplatform_estimate_eq (p : fplatform ℝ) (time steering_angle : Flt ℝ)
    (encoder_ticks : ℤ) (angular_velocity : Flt ℝ) :
    (p.estimate time steering_angle encoder_ticks angular_velocity).2.x
        = p.x + (p.increments (time - p.time) steering_angle
            (p.est_wheel_speed (time - p.time) (encoder_ticks - p.encoder_ticks))
            angular_velocity).1
      ∧ (p.estimate time steering_angle encoder_ticks angular_velocity).2.y
        = p.y + (p.increments (time - p.time) steering_angle
            (p.est_wheel_speed (time - p.time) (encoder_ticks - p.encoder_ticks))
            angular_velocity).2.1
      ∧ (p.estimate time steering_angle encoder_ticks angular_velocity).2.theta
        = p.theta + (p.increments (time - p.time) steering_angle
            (p.est_wheel_speed (time - p.time) (encoder_ticks - p.encoder_ticks))
            angular_velocity).2.2
      ∧ (p.estimate time steering_angle encoder_ticks angular_velocity).1
        = ((p.estimate time steering_angle encoder_ticks angular_velocity).2.x,
           (p.estimate time steering_angle encoder_ticks angular_velocity).2.y,
           (p.estimate time steering_angle encoder_ticks angular_velocity).2.theta) :=
  ⟨rfl, rfl, rfl, rfl⟩

/-- Once `x` and `y` are NaN, every later call returns NaN for them. -/
theorem fplatform_nan_sticky (l : List (Sample (Flt ℝ))) :
    ∀ p : fplatform ℝ, p.x = Flt.nan → p.y = Flt.nan →
      ∀ q ∈ p.poses l, q.1 = Flt.nan ∧ q.2.1 = Flt.nan := by
  induction l with
  | nil => intro p _ _ q hq; exact absurd hq (List.not_mem_nil q)
  | cons a rest ih =>
    intro p hx hy q hq
    obtain ⟨ex, ey, -, er⟩ := fplatform_estimate_eq p a.time a.steering_angle
      a.encoder_ticks a.angular_velocity
    rw [hx, flt_nan_add] at ex
    rw [hy, flt_nan_add] at ey
    have hq' : q = (p.feed a).1 ∨ q ∈ (p.feed a).2.poses rest := List.mem_cons.mp hq
    rcases hq' with rfl | hq'
    · have e : (p.feed a).1 = ((p.feed a).2.x, (p.feed a).2.y, (p.feed a).2.theta) := er
      rw [e]
      exact ⟨ex, ey⟩
    · exact ih (p.feed a).2 ex ey q hq'

/-- Increments of a call with zero elapsed time on the straight-line route. -/
theorem fplatform_increments_zero_time_straight (p : fplatform ℝ)
    (steering_angle wheel_speed angular_velocity : Flt ℝ) (hv : ¬ wheel_speed.finite)
    (h : (Flt.eq angular_velocity (Flt.fin 0) || Flt.eq steering_angle (Flt.fin 0)) = true) :
    (p.increments (Flt.fin 0) steering_angle wheel_speed angular_velocity).1 = Flt.nan
      ∧ (p.increments (Flt.fin 0) steering_angle wheel_speed angular_velocity).2.1
          = Flt.nan := by
  unfold fplatform.increments
  rw [flt_eq_zero_of_not_finite _ hv, h, flt_not_finite_mul_zero _ hv]
  simp [flt_nan_mul]

/-- Increments of a call with zero elapsed time on the arc route, for finite heading,
yaw rate and turning radius. -/
theorem fplatform_increments_zero_time_arc (p : fplatform ℝ)
    (steering_angle wheel_speed : Flt ℝ) (w h rho : ℝ) (hv : ¬ wheel_speed.finite)
    (hs : Flt.eq steering_angle (Flt.fin 0) = false) (hw : w ≠ 0)
    (hth : p.theta = Flt.fin h)
    (hrho : p.r_axel / CMath.tan steering_angle = Flt.fin rho) :
    p.increments (Flt.fin 0) steering_angle wheel_speed (Flt.fin w)
      = (Flt.fin 0, Flt.fin 0, Flt.fin 0) := by
  have hw' : Flt.eq (Flt.fin w) (Flt.fin 0) = false := by simp [Flt.eq, hw]
  unfold fplatform.increments
  rw [flt_eq_zero_of_not_finite _ hv, hw', hs, hrho, hth]
  simp [flt_mul_def, flt_add_def, flt_sub_def, flt_neg_def, Flt.mul, Flt.add, Flt.neg,
    CMath.sin, CMath.cos, Flt.lift]

/-! ### Negation of floating-point values -/

theorem flt_neg_neg (a : Flt ℝ) : - -a = a := by
  cases a <;> simp [flt_neg_def, Flt.neg]

theorem flt_neg_fin_zero : -(Flt.fin 0 : Flt ℝ) = Flt.fin 0 := by
  simp [flt_neg_def, Flt.neg]

theorem flt_neg_add (a b : Flt ℝ) : -a + -b = -(a + b) := by
  cases a <;> cases b <;> simp [flt_neg_def, flt_add_def, Flt.neg, Flt.add]
  ring

theorem flt_neg_scale_inf (x : ℝ) : Flt.scale_inf (-x) = -Flt.scale_inf x := by
  rcases lt_trichotomy x 0 with h | h | h
  · have h1 : x ≠ 0 := ne_of_lt h
    have h2 : ¬ 0 < x := not_lt.mpr (le_of_lt h)
    simp [Flt.scale_inf, flt_neg_def, Flt.neg, h, h1, h2]
  · simp [Flt.scale_inf, flt_neg_def, Flt.neg, h]
  · have h1 : x ≠ 0 := ne_of_gt h
    have h2 : ¬ x < 0 := not_lt.mpr (le_of_lt h)
    simp [Flt.scale_inf, flt_neg_def, Flt.neg, h, h1, h2]

theorem flt_neg_neg_raw (a : Flt ℝ) : Flt.neg (Flt.neg a) = a := by
  cases a <;> simp [Flt.neg]

theorem flt_mul_neg (a b : Flt ℝ) : a * -b = -(a * b) := by
  cases a <;> cases b <;>
    first
    | exact (flt_neg_neg_raw _).symm
    | simp [flt_neg_def, flt_mul_def, Flt.neg, Flt.mul, flt_neg_scale_inf]

theorem flt_neg_mul (a b : Flt ℝ) : -a * b = -(a * b) := by
  cases a <;> cases b <;>
    first
    | exact (flt_neg_neg_raw _).symm
    | simp [flt_neg_def, flt_mul_def, Flt.neg, Flt.mul, flt_neg_scale_inf]

/-- Negating a divisor that is not zero negates the quotient. -/
theorem flt_div_neg (a b : Flt ℝ) (hb : b ≠ Flt.fin 0) : a / -b = -(a / b) := by
  cases b with
  | fin y =>
    have hy : y ≠ 0 := fun h => hb (by rw [h])
    cases a with
    | fin x => simp [flt_neg_def, flt_div_def, Flt.neg, Flt.div, hy, div_neg]
    | pinf =>
      rcases lt_or_gt_of_ne hy with h | h
      · have h1 : ¬ 0 ≤ y := not_le.mpr h
        simp [flt_neg_def, flt_div_def, Flt.neg, Flt.div, h1, le_of_lt h]
      · have h1 : ¬ y ≤ 0 := not_le.mpr h
        simp [flt_neg_def, flt_div_def, Flt.neg, Flt.div, h1, le_of_lt h]
    | ninf =>
      rcases lt_or_gt_of_ne hy with h | h
      · have h1 : ¬ 0 ≤ y := not_le.mpr h
        simp [flt_neg_def, flt_div_def, Flt.neg, Flt.div, h1, le_of_lt h]
      · have h1 : ¬ y ≤ 0 := not_le.mpr h
        simp [flt_neg_def, flt_div_def, Flt.neg, Flt.div, h1, le_of_lt h]
    | nan => simp [flt_neg_def, flt_div_def, Flt.neg, Flt.div]
  | pinf => cases a <;> simp [flt_neg_def, flt_div_def, Flt.neg, Flt.div]
  | ninf => cases a <;> simp [flt_neg_def, flt_div_def, Flt.neg, Flt.div]
  | nan => cases a <;> simp [flt_neg_def, flt_div_def, Flt.neg, Flt.div]

theorem flt_eq_neg_zero (a : Flt ℝ) : Flt.eq (-a) (Flt.fin 0) = Flt.eq a (Flt.fin 0) := by
  cases a <;> simp [flt_neg_def, Flt.neg, Flt.eq]

theorem flt_sin_neg (a : Flt ℝ) : (CMath.sin (-a) : Flt ℝ) = -CMath.sin a := by
  cases a <;> simp [flt_neg_def, Flt.neg, CMath.sin, Flt.lift]

theorem flt_cos_neg (a : Flt ℝ) : (CMath.cos (-a) : Flt ℝ) = CMath.cos a := by
  cases a <;> simp [flt_neg_def, Flt.neg, CMath.cos, Flt.lift]

theorem flt_tan_neg (a : Flt ℝ) : (CMath.tan (-a) : Flt ℝ) = -CMath.tan a := by
  cases a <;> simp [flt_neg_def, Flt.neg, CMath.tan, Flt.lift, Real.tan_neg]

theorem flt_sub_eq (a b : Flt ℝ) : a - b = a + -b := rfl

theorem flt_neg_add_left (a b : Flt ℝ) : -a + b = -(a + -b) := by
  rw [← flt_neg_add, flt_neg_neg]

/-- The tangent of a nonzero rational number is not zero (every `float` is a
rational number). -/
theorem tan_rat_ne_zero (q : ℚ) (hq : (q : ℝ) ≠ 0) : Real.tan (q : ℝ) ≠ 0 := by
  intro h
  obtain ⟨k, hk⟩ := Real.tan_eq_zero_iff.mp h
  have hk0 : (k : ℝ) ≠ 0 := by
    intro h0
    rw [h0, zero_mul, zero_div] at hk
    exact hq hk.symm
  have hpi : Real.pi = ((2 * q / k : ℚ) : ℝ) := by
    push_cast
    field_simp
    linarith
  exact irrational_pi ⟨2 * q / k, hpi.symm⟩

/-- The tangent of a steering angle that does not compare equal to zero is not zero,
when the angle, if finite, is a rational number. -/
theorem flt_tan_ne_zero (d : Flt ℝ) (hd : Flt.eq d (Flt.fin 0) = false)
    (hq : ∀ y : ℝ, d = Flt.fin y → ∃ q : ℚ, (q : ℝ) = y) :
    (CMath.tan d : Flt ℝ) ≠ Flt.fin 0 := by
  cases d with
  | fin y =>
    obtain ⟨q, hqy⟩ := hq y rfl
    have hy : y ≠ 0 := by
      intro h0
      rw [h0] at hd
      simp [Flt.eq] at hd
    have ht : Real.tan y ≠ 0 := by
      rw [← hqy]
      exact tan_rat_ne_zero q (by rw [hqy]; exact hy)
    show Flt.fin (Real.tan y) ≠ Flt.fin 0
    intro h
    exact ht (Flt.fin.inj h)
  | pinf => intro h; cases h
  | ninf => intro h; cases h
  | nan => intro h; cases h

/-- Increments of the reflected floating-point platform on the reflected sample. -/
theorem fplatform_increments_mirror (p : fplatform ℝ)
    (delta_time steering_angle wheel_speed angular_velocity : Flt ℝ)
    (hq : ∀ y : ℝ, steering_angle = Flt.fin y → ∃ q : ℚ, (q : ℝ) = y) :
    p.mirror.increments delta_time (-steering_angle) wheel_speed (-angular_velocity)
      = mirror_pose
          (p.increments delta_time steering_angle wheel_speed angular_velocity) := by
  have hth : p.mirror.theta = -p.theta := rfl
  have hr : p.mirror.r_axel = p.r_axel := rfl
  unfold fplatform.increments
  rw [flt_eq_neg_zero, flt_eq_neg_zero, hth, hr]
  cases hv : Flt.eq wheel_speed (Flt.fin 0)
  · cases hs : (Flt.eq angular_velocity (Flt.fin 0) || Flt.eq steering_angle (Flt.fin 0))
    · have hd : Flt.eq steering_angle (Flt.fin 0) = false := by
        cases h1 : Flt.eq steering_angle (Flt.fin 0)
        · rfl
        · rw [h1, Bool.or_true] at hs
          exact absurd hs (by decide)
      have ht := flt_tan_ne_zero steering_angle hd hq
      simp only [Bool.false_eq_true, if_false, mirror_pose, flt_tan_neg,
        flt_div_neg _ _ ht, flt_mul_neg, flt_neg_mul, flt_neg_add, flt_sin_neg,
        flt_cos_neg, flt_sub_eq, flt_neg_neg, flt_neg_add_left]
    · simp only [Bool.false_eq_true, if_false, if_true, mirror_pose, flt_mul_neg,
        flt_sin_neg, flt_cos_neg, flt_neg_fin_zero]
  · simp only [if_true, mirror_pose, flt_neg_fin_zero]

/-- Feeding the reflected sample to the reflected floating-point platform gives the
reflected result. -/
theorem fplatform_feed_mirror (p : fplatform ℝ) (s : Sample (Flt ℝ))
    (hq : ∀ y : ℝ, s.steering_angle = Flt.fin y → ∃ q : ℚ, (q : ℝ) = y) :
    (p.mirror.feed s.mirror).1 = mirror_pose (p.feed s).1
      ∧ (p.mirror.feed s.mirror).2 = (p.feed s).2.mirror := by
  have h : p.mirror.increments (s.mirror.time - p.mirror.time) s.mirror.steering_angle
      (p.mirror.est_wheel_speed (s.mirror.time - p.mirror.time)
        (s.mirror.encoder_ticks - p.mirror.encoder_ticks)) s.mirror.angular_velocity
      = mirror_pose (p.increments (s.time - p.time) s.steering_angle
          (p.est_wheel_speed (s.time - p.time) (s.encoder_ticks - p.encoder_ticks))
          s.angular_velocity) :=
    fplatform_increments_mirror p _ _ _ _ hq
  constructor
  · show (p.mirror.x + _, p.mirror.y + _, p.mirror.theta + _) = mirror_pose (_, _, _)
    rw [h]
    show (p.x + _, -p.y + -_, -p.theta + -_) = (_, -_, -_)
    rw [flt_neg_add, flt_neg_add]
    rfl
  · have e : (p.mirror.feed s.mirror).2
        = { p.mirror with
            x := p.mirror.x + (p.mirror.increments (s.mirror.time - p.mirror.time)
              s.mirror.steering_angle (p.mirror.est_wheel_speed
                (s.mirror.time - p.mirror.time)
                (s.mirror.encoder_ticks - p.mirror.encoder_ticks))
              s.mirror.angular_velocity).1
            y := p.mirror.y + (p.mirror.increments (s.mirror.time - p.mirror.time)
              s.mirror.steering_angle (p.mirror.est_wheel_speed
                (s.mirror.time - p.mirror.time)
                (s.mirror.encoder_ticks - p.mirror.encoder_ticks))
              s.mirror.angular_velocity).2.1
            theta := p.mirror.theta + (p.mirror.increments (s.mirror.time - p.mirror.time)
              s.mirror.steering_angle (p.mirror.est_wheel_speed
                (s.mirror.time - p.mirror.time)
                (s.mirror.encoder_ticks - p.mirror.encoder_ticks))
              s.mirror.angular_velocity).2.2
            time := s.time
            encoder_ticks := s.encoder_ticks } := rfl
    rw [e, h]
    show ({ p with
            x := p.x + _
            y := -p.y + -_
            theta := -p.theta + -_
            time := s.time
            encoder_ticks := s.encoder_ticks } : fplatform ℝ) = _
    rw [flt_neg_add, flt_neg_add]
    rfl

theorem fplatform_poses_mirror (l : List (Sample (Flt ℝ))) :
    ∀ p : fplatform ℝ,
      (∀ s ∈ l, ∀ y : ℝ, s.steering_angle = Flt.fin y → ∃ q : ℚ, (q : ℝ) = y) →
      p.mirror.poses (l.map Sample.mirror) = (p.poses l).map mirror_pose := by
  induction l with
  | nil => intro p _; rfl
  | cons a rest ih =>
    intro p hq
    obtain ⟨h1, h2⟩ := fplatform_feed_mirror p a (hq a (List.mem_cons_self _ _))
    show (p.mirror.feed a.mirror).1 :: (p.mirror.feed a.mirror).2.poses
        (rest.map Sample.mirror) = mirror_pose (p.feed a).1 :: ((p.feed a).2.poses rest).map
        mirror_pose
    rw [h1, h2, ih _ (fun s hs => hq s (List.mem_cons_of_mem _ hs))]

theorem fplatform_fresh_mirror : ({} : fplatform ℝ).mirror = {} := by
  show ({ y := -Flt.fin (0.0 : ℝ), theta := -Flt.fin (0.0 : ℝ) } : fplatform ℝ) = {}
  have z : -Flt.fin (0.0 : ℝ) = Flt.fin (0.0 : ℝ) := by
    rw [flt_neg_def]
    show Flt.fin (-(0.0 : ℝ)) = Flt.fin 0.0
    norm_num
  rw [z]

/-- On floating-point values too, when the wheel speed, the yaw rate or the steering
angle compares equal to zero, the result of a call is the same whatever function
stands for `std::tan`. -/
theorem fplatform_estimate_tan_free (p : fplatform ℝ) (tan_alt : ℝ → ℝ)
    (time steering_angle : Flt ℝ) (encoder_ticks : ℤ) (angular_velocity : Flt ℝ)
    (h : (Flt.eq (p.est_wheel_speed (time - p.time) (encoder_ticks - p.encoder_ticks))
            (Flt.fin 0)
          || Flt.eq angular_velocity (Flt.fin 0)
          || Flt.eq steering_angle (Flt.fin 0)) = true) :
    @fplatform.estimate ℝ _ (CMath.mk Real.pi Real.cos Real.sin tan_alt) p
        time steering_angle encoder_ticks angular_velocity
      = p.estimate time steering_angle encoder_ticks angular_velocity := by
  have e : @fplatform.est_wheel_speed ℝ _ (CMath.mk Real.pi Real.cos Real.sin tan_alt) p
      (time - p.time) (encoder_ticks - p.encoder_ticks)
      = p.est_wheel_speed (time - p.time) (encoder_ticks - p.encoder_ticks) := rfl
  have hi : @fplatform.increments ℝ _ (CMath.mk Real.pi Real.cos Real.sin tan_alt) p
      (time - p.time) steering_angle
      (p.est_wheel_speed (time - p.time) (encoder_ticks - p.encoder_ticks)) angular_velocity
      = p.increments (time - p.time) steering_angle
      (p.est_wheel_speed (time - p.time) (encoder_ticks - p.encoder_ticks))
      angular_velocity := by
    unfold fplatform.increments
    cases hv : Flt.eq (p.est_wheel_speed (time - p.time) (encoder_ticks - p.encoder_ticks))
      (Flt.fin 0)
    · rw [hv, Bool.false_or] at h
      rw [h]
      rfl
    · rfl
  unfold fplatform.estimate
  simp only [e, hi]

end NonFinite

/-! ## Claims -/

/-- C1 (zero motion): when the sample's tick count equals the stored one and the
timestamps differ, `estimate` returns the previous `(x, y, theta)` and the stored
`x`, `y`, `theta` are unchanged, whatever the steering angle and yaw rate. -/
theorem estimate_zero_motion (p : platform ℝ) (time steering_angle angular_velocity : ℝ)
    (_hdt : time - p.time ≠ 0) :
    (p.estimate time steering_angle p.encoder_ticks angular_velocity).1
        = (p.x, p.y, p.theta)
      ∧ (p.estimate time steering_angle p.encoder_ticks angular_velocity).2.x = p.x
      ∧ (p.estimate time steering_angle p.encoder_ticks angular_velocity).2.y = p.y
      ∧ (p.estimate time steering_angle p.encoder_ticks angular_velocity).2.theta = p.theta := by
  have h : p.increments (time - p.time) steering_angle
      (p.est_wheel_speed (time - p.time) 0) angular_velocity = (0, 0, 0) := by
    rw [est_wheel_speed_zero_ticks, increments_stationary]
  simp [platform.estimate, h]

/-- Witness of C1: a platform at pose `(3, 4, 1)` with 7 ticks stored, fed a
sample one second later with the same 7 ticks, steering 1/2 and yaw rate 2. -/
theorem estimate_zero_motion_witness :
    (({ x := 3, y := 4, theta := 1, encoder_ticks := 7 } : platform ℝ).estimate
        1 (1 / 2) 7 2).1 = (3, 4, 1) :=
  (estimate_zero_motion { x := 3, y := 4, theta := 1, encoder_ticks := 7 } 1 (1 / 2) 2
    (by norm_num)).1

/-- C4 (mirror symmetry): for every sequence of samples, repeated timestamps and
non-finite values included, a freshly constructed platform fed the sequence with
steering angle and yaw rate negated in every sample returns, at every call, the
same `x`, the negated `y` and the negated heading as a freshly constructed platform
fed the original sequence.  The finite steering angles are rational numbers, as
every `float` is. -/
theorem mirror_symmetry (l : List (Sample (Flt ℝ)))
    (hq : ∀ s ∈ l, ∀ y : ℝ, s.steering_angle = Flt.fin y → ∃ q : ℚ, (q : ℝ) = y) :
    ({} : fplatform ℝ).poses (l.map Sample.mirror)
      = (({} : fplatform ℝ).poses l).map mirror_pose := by
  have h := fplatform_poses_mirror l {} hq
  rw [fplatform_fresh_mirror] at h
  exact h

/-- Witness of C4: a sample that repeats the construction time 0 (steering angle 0,
tick count 1, yaw rate 0) followed by an arc sample at time 1 (steering angle 1/2,
tick count 2, yaw rate 1). -/
theorem mirror_symmetry_witness :
    ({} : fplatform ℝ).poses
        ([⟨Flt.fin 0, Flt.fin 0, 1, Flt.fin 0⟩,
          ⟨Flt.fin 1, Flt.fin (1 / 2), 2, Flt.fin 1⟩].map Sample.mirror)
      = (({} : fplatform ℝ).poses
        [⟨Flt.fin 0, Flt.fin 0, 1, Flt.fin 0⟩,
          ⟨Flt.fin 1, Flt.fin (1 / 2), 2, Flt.fin 1⟩]).map mirror_pose :=
  mirror_symmetry _ (by
    intro s hs y hy
    simp only [List.mem_cons, List.mem_singleton, List.not_mem_nil, or_false] at hs
    rcases hs with rfl | rfl
    · exact ⟨0, by rw [← Flt.fin.inj hy]; norm_num⟩
    · exact ⟨1 / 2, by rw [← Flt.fin.inj hy]; norm_num⟩)

/-- C5, as stated, fails on the arc route: the freshly constructed platform at
time `pi / 2`, steering angle `pi / 4`, yaw rate 1 moves by `(1, 1)` both for the
tick count `1` and for the tick count `-1`, so the reverse displacement is not the
negation of the forward one. -/
theorem tick_reversal_counterexample :
    (({} : platform ℝ).estimate (Real.pi / 2) (Real.pi / 4) 1 1).1 = (1, 1, Real.pi / 2)
      ∧ (({} : platform ℝ).estimate (Real.pi / 2) (Real.pi / 4) (-1) 1).1
          = (1, 1, Real.pi / 2)
      ∧ ¬ ((({} : platform ℝ).estimate (Real.pi / 2) (Real.pi / 4) (-1) 1).2.x
              - ({} : platform ℝ).x
            = -((({} : platform ℝ).estimate (Real.pi / 2) (Real.pi / 4) 1 1).2.x
              - ({} : platform ℝ).x)) := by
  have hpi : Real.pi / 2 ≠ 0 := by positivity
  have hpi4 : Real.pi / 4 ≠ 0 := by positivity
  have hf := feed_arc ({} : platform ℝ) ⟨Real.pi / 2, Real.pi / 4, 1, 1⟩
    (by norm_num) (by decide) one_ne_zero hpi4 (by norm_num [hpi]) (by decide)
  have hb := feed_arc ({} : platform ℝ) ⟨Real.pi / 2, Real.pi / 4, -1, 1⟩
    (by norm_num) (by decide) one_ne_zero hpi4 (by norm_num [hpi]) (by decide)
  have e1 : ({} : platform ℝ).feed ⟨Real.pi / 2, Real.pi / 4, 1, 1⟩
      = ({} : platform ℝ).estimate (Real.pi / 2) (Real.pi / 4) 1 1 := rfl
  have e2 : ({} : platform ℝ).feed ⟨Real.pi / 2, Real.pi / 4, -1, 1⟩
      = ({} : platform ℝ).estimate (Real.pi / 2) (Real.pi / 4) (-1) 1 := rfl
  rw [e1] at hf
  rw [e2] at hb
  have r1 : (({} : platform ℝ).estimate (Real.pi / 2) (Real.pi / 4) 1 1).1
      = ((({} : platform ℝ).estimate (Real.pi / 2) (Real.pi / 4) 1 1).2.x,
         (({} : platform ℝ).estimate (Real.pi / 2) (Real.pi / 4) 1 1).2.y,
         (({} : platform ℝ).estimate (Real.pi / 2) (Real.pi / 4) 1 1).2.theta) := rfl
  have r2 : (({} : platform ℝ).estimate (Real.pi / 2) (Real.pi / 4) (-1) 1).1
      = ((({} : platform ℝ).estimate (Real.pi / 2) (Real.pi / 4) (-1) 1).2.x,
         (({} : platform ℝ).estimate (Real.pi / 2) (Real.pi / 4) (-1) 1).2.y,
         (({} : platform ℝ).estimate (Real.pi / 2) (Real.pi / 4) (-1) 1).2.theta) := rfl
  generalize ({} : platform ℝ).estimate (Real.pi / 2) (Real.pi / 4) 1 1 = fwd at hf r1 ⊢
  generalize ({} : platform ℝ).estimate (Real.pi / 2) (Real.pi / 4) (-1) 1 = bwd at hb r2 ⊢
  norm_num [Real.tan_pi_div_four] at hf hb
  obtain ⟨fx, fy, fth⟩ := hf
  obtain ⟨bx, by_, bth⟩ := hb
  refine ⟨?_, ?_, ?_⟩
  · rw [r1, fx, fy, fth]
  · rw [r2, bx, by_, bth]
  · rw [fx, bx]; norm_num

/-- C5, amended: for two samples that differ only in the sign of a tick delta `k`,
the heading change is the same; on the straight-line route (yaw rate or steering
angle zero) the displacement for `-k` is the negation of the displacement for `k`;
when yaw rate and steering angle are both nonzero the displacement is the same
for `-k` and for `k`. -/
theorem tick_reversal (p : platform ℝ) (time steering_angle angular_velocity : ℝ) (k : ℤ)
    (_hdt : time - p.time ≠ 0) (_hk : k ≠ 0) :
    (p.estimate time steering_angle (p.encoder_ticks - k) angular_velocity).2.theta - p.theta
        = (p.estimate time steering_angle (p.encoder_ticks + k) angular_velocity).2.theta
            - p.theta
      ∧ (angular_velocity = 0 ∨ steering_angle = 0 →
          (p.estimate time steering_angle (p.encoder_ticks - k) angular_velocity).2.x - p.x
            = -((p.estimate time steering_angle (p.encoder_ticks + k) angular_velocity).2.x
                - p.x)
          ∧ (p.estimate time steering_angle (p.encoder_ticks - k) angular_velocity).2.y - p.y
            = -((p.estimate time steering_angle (p.encoder_ticks + k) angular_velocity).2.y
                - p.y))
      ∧ (angular_velocity ≠ 0 → steering_angle ≠ 0 →
          (p.estimate time steering_angle (p.encoder_ticks - k) angular_velocity).2.x - p.x
            = (p.estimate time steering_angle (p.encoder_ticks + k) angular_velocity).2.x
                - p.x
          ∧ (p.estimate time steering_angle (p.encoder_ticks - k) angular_velocity).2.y - p.y
            = (p.estimate time steering_angle (p.encoder_ticks + k) angular_velocity).2.y
                - p.y) := by
  have hm : p.encoder_ticks - k - p.encoder_ticks = -k := by ring
  have hp : p.encoder_ticks + k - p.encoder_ticks = k := by ring
  have hneg := est_wheel_speed_neg p (time - p.time) k
  simp only [estimate_eq, hm, hp, hneg, add_sub_cancel_left]
  by_cases hw : p.est_wheel_speed (time - p.time) k = 0
  · simp [hw, increments_stationary]
  · have hw' : -p.est_wheel_speed (time - p.time) k ≠ 0 := neg_ne_zero.mpr hw
    by_cases h : angular_velocity = 0 ∨ steering_angle = 0
    · rw [increments_straight p _ _ _ _ h, increments_straight p _ _ _ _ h]
      refine ⟨rfl, fun _ => ⟨by ring, by ring⟩, fun ha hs => ?_⟩
      exact absurd h (not_or.mpr ⟨ha, hs⟩)
    · have ha : angular_velocity ≠ 0 := fun e => h (Or.inl e)
      have hs : steering_angle ≠ 0 := fun e => h (Or.inr e)
      rw [increments_arc p _ _ _ _ hw' ha hs, increments_arc p _ _ _ _ hw ha hs]
      exact ⟨rfl, fun h' => absurd h' h, fun _ _ => ⟨rfl, rfl⟩⟩

/-- Witness of the amended C5: the freshly constructed platform at time 1 with
steering angle 0, yaw rate 0 and tick deltas `-2` and `2`. -/
theorem tick_reversal_witness :
    (({} : platform ℝ).estimate 1 0 (({} : platform ℝ).encoder_ticks - 2) 0).2.x
        - ({} : platform ℝ).x
      = -((({} : platform ℝ).estimate 1 0 (({} : platform ℝ).encoder_ticks + 2) 0).2.x
        - ({} : platform ℝ).x) :=
  ((tick_reversal {} 1 0 0 2 (by norm_num) (by decide)).2.1 (Or.inl rfl)).1

/-- C7 (straight-line routing on zero yaw rate): a sample with yaw rate 0, nonzero
steering angle, nonzero elapsed time and nonzero tick delta gives exactly the
result of the same sample with steering angle 0: the heading is unchanged and
`(x, y)` advances by `wheel_speed * delta_time * (cos theta, sin theta)`, the wheel
speed being nonzero for nonzero `R` and `gamma`.  For every sample with a nonzero
elapsed time, the result is that straight-line formula as soon as one of wheel
speed, yaw rate and steering angle is zero, and the arc formula when all three are
nonzero; in the first case the result does not depend on the function standing for
`std::tan`.  The last part states that independence on floating-point values, for
every state and every sample, a zero elapsed time and non-finite values included. -/
theorem estimate_zero_yaw_rate (p : platform ℝ) (time steering_angle : ℝ)
    (encoder_ticks : ℤ) (_hs : steering_angle ≠ 0) (hdt : time - p.time ≠ 0)
    (hticks : encoder_ticks - p.encoder_ticks ≠ 0) :
    p.estimate time steering_angle encoder_ticks 0 = p.estimate time 0 encoder_ticks 0
      ∧ (p.estimate time steering_angle encoder_ticks 0).1
        = (p.x + p.est_wheel_speed (time - p.time) (encoder_ticks - p.encoder_ticks)
                   * (time - p.time) * Real.cos p.theta,
           p.y + p.est_wheel_speed (time - p.time) (encoder_ticks - p.encoder_ticks)
                   * (time - p.time) * Real.sin p.theta,
           p.theta)
      ∧ (p.R ≠ 0 → p.gamma ≠ 0 →
          p.est_wheel_speed (time - p.time) (encoder_ticks - p.encoder_ticks) ≠ 0)
      ∧ (∀ (t d : ℝ) (n : ℤ) (w : ℝ), t - p.time ≠ 0 →
          p.est_wheel_speed (t - p.time) (n - p.encoder_ticks) = 0 ∨ w = 0 ∨ d = 0 →
          (p.estimate t d n w).1
            = (p.x + p.est_wheel_speed (t - p.time) (n - p.encoder_ticks)
                       * (t - p.time) * Real.cos p.theta,
               p.y + p.est_wheel_speed (t - p.time) (n - p.encoder_ticks)
                       * (t - p.time) * Real.sin p.theta,
               p.theta))
      ∧ (∀ (t d : ℝ) (n : ℤ) (w : ℝ),
          p.est_wheel_speed (t - p.time) (n - p.encoder_ticks) ≠ 0 → w ≠ 0 → d ≠ 0 →
          (p.estimate t d n w).1
            = (p.x + p.r_axel / Real.tan d *
                 (Real.sin (p.theta + (t - p.time) * w) - Real.sin p.theta),
               p.y + p.r_axel / Real.tan d *
                 (-Real.cos (p.theta + (t - p.time) * w) + Real.cos p.theta),
               p.theta + (t - p.time) * w))
      ∧ (∀ (tan_alt : ℝ → ℝ) (t d : ℝ) (n : ℤ) (w : ℝ), t - p.time ≠ 0 →
          p.est_wheel_speed (t - p.time) (n - p.encoder_ticks) = 0 ∨ w = 0 ∨ d = 0 →
          @platform.estimate ℝ _ _ (CMath.mk Real.pi Real.cos Real.sin tan_alt) p t d n w
            = p.estimate t d n w)
      ∧ (∀ (q : fplatform ℝ) (tan_alt : ℝ → ℝ) (t d : Flt ℝ) (n : ℤ) (w : Flt ℝ),
          (Flt.eq (q.est_wheel_speed (t - q.time) (n - q.encoder_ticks)) (Flt.fin 0)
            || Flt.eq w (Flt.fin 0) || Flt.eq d (Flt.fin 0)) = true →
          @fplatform.estimate ℝ _ (CMath.mk Real.pi Real.cos Real.sin tan_alt) q t d n w
            = q.estimate t d n w) := by
  have key : ∀ (t d : ℝ) (n : ℤ) (w : ℝ),
      p.est_wheel_speed (t - p.time) (n - p.encoder_ticks) = 0 ∨ w = 0 ∨ d = 0 →
      p.increments (t - p.time) d (p.est_wheel_speed (t - p.time) (n - p.encoder_ticks)) w
        = (p.est_wheel_speed (t - p.time) (n - p.encoder_ticks) * (t - p.time)
              * Real.cos p.theta,
           p.est_wheel_speed (t - p.time) (n - p.encoder_ticks) * (t - p.time)
              * Real.sin p.theta, 0) := by
    intro t d n w h
    rcases h with h | h
    · rw [h, increments_stationary]; simp
    · exact increments_straight p d w _ _ h
  refine ⟨?_, ?_, ?_, ?_, ?_,
    fun tan_alt t d n w _ h => estimate_tan_free p t d n w tan_alt h,
    fun q tan_alt t d n w h => fplatform_estimate_tan_free q tan_alt t d n w h⟩
  · rw [estimate_eq, estimate_eq, key time steering_angle encoder_ticks 0 (Or.inr (Or.inl rfl)),
      key time 0 encoder_ticks 0 (Or.inr (Or.inl rfl))]
  · rw [estimate_eq, key time steering_angle encoder_ticks 0 (Or.inr (Or.inl rfl))]
    simp
  · intro hR hg
    exact est_wheel_speed_ne_zero p _ _ hR hg hticks hdt
  · intro t d n w _ h
    rw [estimate_eq, key t d n w h]
    simp
  · intro t d n w hw ha hs
    rw [estimate_eq, increments_arc p d w _ _ hw ha hs]

/-- Witness of C7: the freshly constructed platform, fed time 1, steering 1/2,
3 ticks and yaw rate 0, ends where steering angle 0 would have taken it. -/
theorem estimate_zero_yaw_rate_witness :
    ({} : platform ℝ).estimate 1 (1 / 2) 3 0 = ({} : platform ℝ).estimate 1 0 3 0 :=
  (estimate_zero_yaw_rate {} 1 (1 / 2) 3 (by norm_num) (by norm_num) (by decide)).1

/-- C8 (state update and return value): after any call, for every state and every
sample (a zero elapsed time and non-finite values included), the stored `time` and
`encoder_ticks` are the sample's, `R`, `gamma` and `r_axel` are unchanged, the
returned tuple is the stored `(x, y, theta)`, and that pose is the old one plus the
increments of the branch taken: zeros when the wheel speed compares equal to zero,
the straight-line ones when the yaw rate or the steering angle does, the arc ones
otherwise. -/
theorem estimate_state_update (p : fplatform ℝ) (time steering_angle : Flt ℝ)
    (encoder_ticks : ℤ) (angular_velocity : Flt ℝ) :
    (p.estimate time steering_angle encoder_ticks angular_velocity).2.time = time
      ∧ (p.estimate time steering_angle encoder_ticks angular_velocity).2.encoder_ticks
          = encoder_ticks
      ∧ (p.estimate time steering_angle encoder_ticks angular_velocity).2.R = p.R
      ∧ (p.estimate time steering_angle encoder_ticks angular_velocity).2.gamma = p.gamma
      ∧ (p.estimate time steering_angle encoder_ticks angular_velocity).2.r_axel = p.r_axel
      ∧ (p.estimate time steering_angle encoder_ticks angular_velocity).1
          = ((p.estimate time steering_angle encoder_ticks angular_velocity).2.x,
             (p.estimate time steering_angle encoder_ticks angular_velocity).2.y,
             (p.estimate time steering_angle encoder_ticks angular_velocity).2.theta)
      ∧ (Flt.eq (p.est_wheel_speed (time - p.time) (encoder_ticks - p.encoder_ticks))
            (Flt.fin 0) = true →
          (p.estimate time steering_angle encoder_ticks angular_velocity).1
            = (p.x + Flt.fin 0, p.y + Flt.fin 0, p.theta + Flt.fin 0))
      ∧ (Flt.eq (p.est_wheel_speed (time - p.time) (encoder_ticks - p.encoder_ticks))
            (Flt.fin 0) = false →
          (Flt.eq angular_velocity (Flt.fin 0) || Flt.eq steering_angle (Flt.fin 0)) = true →
          (p.estimate time steering_angle encoder_ticks angular_velocity).1
            = (p.x + p.est_wheel_speed (time - p.time) (encoder_ticks - p.encoder_ticks)
                       * (time - p.time) * CMath.cos p.theta,
               p.y + p.est_wheel_speed (time - p.time) (encoder_ticks - p.encoder_ticks)
                       * (time - p.time) * CMath.sin p.theta,
               p.theta + Flt.fin 0))
      ∧ (Flt.eq (p.est_wheel_speed (time - p.time) (encoder_ticks - p.encoder_ticks))
            (Flt.fin 0) = false →
          (Flt.eq angular_velocity (Flt.fin 0) || Flt.eq steering_angle (Flt.fin 0))
            = false →
          (p.estimate time steering_angle encoder_ticks angular_velocity).1
            = (p.x + p.r_axel / CMath.tan steering_angle *
                 (CMath.sin (p.theta + (time - p.time) * angular_velocity)
                    - CMath.sin p.theta),
               p.y + p.r_axel / CMath.tan steering_angle *
                 (-CMath.cos (p.theta + (time - p.time) * angular_velocity)
                    + CMath.cos p.theta),
               p.theta + (time - p.time) * angular_velocity)) := by
  obtain ⟨ex, ey, eth, er⟩ := fplatform_estimate_eq p time steering_angle encoder_ticks
    angular_velocity
  refine ⟨rfl, rfl, rfl, rfl, rfl, rfl, ?_, ?_, ?_⟩
  · intro hv
    rw [er, ex, ey, eth]
    unfold fplatform.increments
    rw [hv]
    rfl
  · intro hv hs
    rw [er, ex, ey, eth]
    unfold fplatform.increments
    rw [hv, hs]
    rfl
  · intro hv hs
    rw [er, ex, ey, eth]
    unfold fplatform.increments
    rw [hv, hs]
    rfl

/-- C11, as stated, fails on the arc route: the freshly constructed platform (pose
`(0, 0, 0)`), fed a sample with its own stored time, steering angle `pi / 4`, tick
count 1 and yaw rate 1, computes a wheel speed that is not finite, and yet returns
and stores the finite pose `(0, 0, 0)`. -/
theorem zero_time_counterexample :
    ¬ (({} : fplatform ℝ).est_wheel_speed
          (({} : fplatform ℝ).time - ({} : fplatform ℝ).time)
          (1 - ({} : fplatform ℝ).encoder_ticks)).finite
      ∧ (({} : fplatform ℝ).estimate ({} : fplatform ℝ).time (Flt.fin (Real.pi / 4)) 1
          (Flt.fin 1)).1 = (Flt.fin 0, Flt.fin 0, Flt.fin 0)
      ∧ (({} : fplatform ℝ).estimate ({} : fplatform ℝ).time (Flt.fin (Real.pi / 4)) 1
          (Flt.fin 1)).2.x.finite
      ∧ (({} : fplatform ℝ).estimate ({} : fplatform ℝ).time (Flt.fin (Real.pi / 4)) 1
          (Flt.fin 1)).2.y.finite
      ∧ (({} : fplatform ℝ).estimate ({} : fplatform ℝ).time (Flt.fin (Real.pi / 4)) 1
          (Flt.fin 1)).2.theta.finite := by
  have hpi : Real.pi / 4 ≠ 0 := by positivity
  have z : (0.0 : ℝ) = 0 := by norm_num
  have o : (1.0 : ℝ) = 1 := by norm_num
  have hdt : ({} : fplatform ℝ).time - ({} : fplatform ℝ).time = Flt.fin 0 :=
    flt_fin_sub_self _
  have hv : ¬ (({} : fplatform ℝ).est_wheel_speed
      (({} : fplatform ℝ).time - ({} : fplatform ℝ).time)
      (1 - ({} : fplatform ℝ).encoder_ticks)).finite := by
    rw [hdt]
    exact fplatform_wheel_speed_not_finite _ _
  have hs : Flt.eq (Flt.fin (Real.pi / 4)) (Flt.fin 0) = false := by
    simp [Flt.eq, hpi]
  have hth : ({} : fplatform ℝ).theta = Flt.fin 0 := by
    show Flt.fin (0.0 : ℝ) = Flt.fin 0
    rw [z]
  have hrho : ({} : fplatform ℝ).r_axel / CMath.tan (Flt.fin (Real.pi / 4)) = Flt.fin 1 := by
    show Flt.div (Flt.fin (1.0 : ℝ)) (Flt.lift Real.tan (Flt.fin (Real.pi / 4))) = Flt.fin 1
    simp [Flt.div, Flt.lift, Real.tan_pi_div_four, o]
  have hinc := fplatform_increments_zero_time_arc ({} : fplatform ℝ)
    (Flt.fin (Real.pi / 4))
    (({} : fplatform ℝ).est_wheel_speed
      (({} : fplatform ℝ).time - ({} : fplatform ℝ).time)
      (1 - ({} : fplatform ℝ).encoder_ticks)) 1 0 1
    (by rw [hdt]; exact fplatform_wheel_speed_not_finite _ _) hs one_ne_zero hth hrho
  obtain ⟨ex, ey, eth, er⟩ := fplatform_estimate_eq ({} : fplatform ℝ)
    ({} : fplatform ℝ).time (Flt.fin (Real.pi / 4)) 1 (Flt.fin 1)
  rw [hdt] at ex ey eth
  rw [hdt] at hv
  have hinc' : ({} : fplatform ℝ).increments (Flt.fin 0) (Flt.fin (Real.pi / 4))
      (({} : fplatform ℝ).est_wheel_speed (Flt.fin 0)
        (1 - ({} : fplatform ℝ).encoder_ticks)) (Flt.fin 1)
      = (Flt.fin 0, Flt.fin 0, Flt.fin 0) := by
    rw [hdt] at hinc
    exact hinc
  rw [hinc', flt_add_fin_zero] at ex ey eth
  have hx0 : ({} : fplatform ℝ).x = Flt.fin 0 := by
    show Flt.fin (0.0 : ℝ) = Flt.fin 0
    rw [z]
  have hy0 : ({} : fplatform ℝ).y = Flt.fin 0 := by
    show Flt.fin (0.0 : ℝ) = Flt.fin 0
    rw [z]
  rw [hx0] at ex
  rw [hy0] at ey
  rw [hth] at eth
  refine ⟨by rw [hdt]; exact hv, ?_, ?_, ?_, ?_⟩
  · rw [er, ex, ey, eth]
  · rw [ex]; trivial
  · rw [ey]; trivial
  · rw [eth]; trivial

/-- C11, amended: for every state and every sample whose time equals the stored
(finite) time, the wheel speed computed by `est_wheel_speed` is not finite.  When the
yaw rate or the steering angle compares equal to zero (straight-line route), the
call stores NaN in `x` and `y`, returns a pose that is not finite, and every later
call, for any samples, again returns NaN for `x` and `y`.  When the yaw rate is
finite and nonzero, the steering angle does not compare equal to zero and the heading
and `r_axel / tan steering_angle` are finite (arc route), the call leaves `x`, `y`
and the heading as they were. -/
theorem zero_time_corruption (p : fplatform ℝ) (t : ℝ)
    (steering_angle angular_velocity : Flt ℝ) (encoder_ticks : ℤ)
    (ht : p.time = Flt.fin t) :
    ¬ (p.est_wheel_speed (Flt.fin t - p.time) (encoder_ticks - p.encoder_ticks)).finite
      ∧ ((Flt.eq angular_velocity (Flt.fin 0) || Flt.eq steering_angle (Flt.fin 0)) = true →
          (p.estimate (Flt.fin t) steering_angle encoder_ticks angular_velocity).2.x
              = Flt.nan
            ∧ (p.estimate (Flt.fin t) steering_angle encoder_ticks angular_velocity).2.y
              = Flt.nan
            ∧ ¬ (p.estimate (Flt.fin t) steering_angle encoder_ticks
                  angular_velocity).1.1.finite
            ∧ ∀ l : List (Sample (Flt ℝ)),
                ∀ q ∈ (p.estimate (Flt.fin t) steering_angle encoder_ticks
                        angular_velocity).2.poses l,
                  q.1 = Flt.nan ∧ q.2.1 = Flt.nan)
      ∧ (∀ w h rho : ℝ, angular_velocity = Flt.fin w → w ≠ 0 →
          Flt.eq steering_angle (Flt.fin 0) = false → p.theta = Flt.fin h →
          p.r_axel / CMath.tan steering_angle = Flt.fin rho →
          (p.estimate (Flt.fin t) steering_angle encoder_ticks angular_velocity).2.x = p.x
            ∧ (p.estimate (Flt.fin t) steering_angle encoder_ticks angular_velocity).2.y
              = p.y
            ∧ (p.estimate (Flt.fin t) steering_angle encoder_ticks
                angular_velocity).2.theta = p.theta) := by
  have hdt : Flt.fin t - p.time = Flt.fin 0 := by rw [ht]; exact flt_fin_sub_self t
  have hv : ¬ (p.est_wheel_speed (Flt.fin t - p.time)
      (encoder_ticks - p.encoder_ticks)).finite := by
    rw [hdt]
    exact fplatform_wheel_speed_not_finite _ _
  obtain ⟨ex, ey, eth, er⟩ := fplatform_estimate_eq p (Flt.fin t) steering_angle
    encoder_ticks angular_velocity
  rw [hdt] at ex ey eth
  rw [hdt] at hv
  refine ⟨by rw [hdt]; exact hv, ?_, ?_⟩
  · intro hroute
    obtain ⟨ix, iy⟩ := fplatform_increments_zero_time_straight p steering_angle _
      angular_velocity hv hroute
    rw [ix, flt_add_nan] at ex
    rw [iy, flt_add_nan] at ey
    refine ⟨ex, ey, ?_, fun l => fplatform_nan_sticky l _ ex ey⟩
    rw [er, ex]
    exact fun h => h
  · intro w h rho hw hw0 hs hth hrho
    subst hw
    have hinc := fplatform_increments_zero_time_arc p steering_angle _ w h rho hv hs hw0
      hth hrho
    rw [hinc, flt_add_fin_zero] at ex ey eth
    exact ⟨ex, ey, eth⟩

/-- Witness of the amended C11: the freshly constructed platform, fed a sample with
its stored time 0, steering angle 0, tick count 1 and yaw rate 0, stores NaN
in `x`. -/
theorem zero_time_corruption_witness :
    (({} : fplatform ℝ).estimate (Flt.fin 0.0) (Flt.fin 0) 1 (Flt.fin 0)).2.x = Flt.nan :=
  ((zero_time_corruption {} 0.0 (Flt.fin 0) (Flt.fin 0) 1 rfl).2.1
    (by simp [Flt.eq])).1

/-- C14 (arc displacement ignores the encoder): two samples with the same time
(nonzero elapsed time), the same nonzero steering angle and the same nonzero yaw
rate, whose tick deltas are both nonzero, make `estimate` return the same
`(x, y, heading)`: for nonzero `R` and `gamma` it is the arc pose, in which no tick
count occurs. -/
theorem arc_ignores_encoder (p : platform ℝ) (time steering_angle angular_velocity : ℝ)
    (n₁ n₂ : ℤ) (hdt : time - p.time ≠ 0) (hs : steering_angle ≠ 0)
    (hw : angular_velocity ≠ 0) (h₁ : n₁ - p.encoder_ticks ≠ 0)
    (h₂ : n₂ - p.encoder_ticks ≠ 0) :
    (p.estimate time steering_angle n₁ angular_velocity).1
        = (p.estimate time steering_angle n₂ angular_velocity).1
      ∧ (p.R ≠ 0 → p.gamma ≠ 0 →
          (p.estimate time steering_angle n₁ angular_velocity).1
            = (p.x + p.r_axel / Real.tan steering_angle *
                 (Real.sin (p.theta + (time - p.time) * angular_velocity)
                    - Real.sin p.theta),
               p.y + p.r_axel / Real.tan steering_angle *
                 (-Real.cos (p.theta + (time - p.time) * angular_velocity)
                    + Real.cos p.theta),
               p.theta + (time - p.time) * angular_velocity)) := by
  have z₁ := est_wheel_speed_eq_zero_iff p _ _ hdt h₁
  have z₂ := est_wheel_speed_eq_zero_iff p _ _ hdt h₂
  constructor
  · rw [estimate_eq, estimate_eq]
    by_cases hc : 2 * Real.pi * p.R / (p.gamma : ℝ) = 0
    · rw [z₁.mpr hc, z₂.mpr hc]
    · rw [increments_arc p _ _ _ _ (fun h => hc (z₁.mp h)) hw hs,
        increments_arc p _ _ _ _ (fun h => hc (z₂.mp h)) hw hs]
  · intro hR hg
    rw [estimate_eq, increments_arc p _ _ _ _
      (est_wheel_speed_ne_zero p _ _ hR hg h₁ hdt) hw hs]

/-- Witness of C14: the freshly constructed platform at time 1, steering angle 1,
yaw rate 1, with tick counts 3 and -7. -/
theorem arc_ignores_encoder_witness :
    (({} : platform ℝ).estimate 1 1 3 1).1 = (({} : platform ℝ).estimate 1 1 (-7) 1).1 :=
  (arc_ignores_encoder {} 1 1 1 3 (-7) (by norm_num) one_ne_zero one_ne_zero
    (by decide) (by decide)).1

end PoseEstimator
